import Mathlib

/-!
Shallow embedding of the rate-governed asynchronous HTTP dispatcher in
`osu/asyncio/http.py`: the `RateLimitHandler` sliding-window limiter
(`request_used`, `wait`, `reset`, `can_request`) and the dispatch path
`AsynchronousHTTPHandler._make_request` / `get_headers`.

Times (`time.perf_counter()` values) are modelled as rationals; each clock
read in the source becomes an explicit parameter.  Operations that can raise
`IndexError` in Python (`self.requests[0]` on an empty list) return `Option`,
with `none` marking the raise.
-/

/-- State of `RateLimitHandler`: `wait_limit` is `request_wait_time`
(minimum interval between requests, seconds), `limit` is
`limit_per_minute`, `last_request` the last-request timestamp, `requests`
the history of request timestamps in insertion order. -/
structure RateLimitHandler where
  wait_limit : ℚ
  limit : ℕ
  last_request : ℚ
  requests : List ℚ
  deriving DecidableEq

/-- Constructor `RateLimitHandler.__init__`: called at construction time `t`, it sets
`last_request = time.perf_counter() - self.wait_limit` and an empty history. -/
def rateLimitInit (t w : ℚ) (lim : ℕ) : RateLimitHandler :=
  { wait_limit := w, limit := lim, last_request := t - w, requests := [] }

/-- Source `RateLimitHandler.request_used`: appends one clock read `t1` to the
history and sets `last_request` to a second clock read `t2` (the source
calls `time.perf_counter()` twice). -/
def request_used (t1 t2 : ℚ) (st : RateLimitHandler) : RateLimitHandler :=
  { st with requests := st.requests ++ [t1], last_request := t2 }

/-- The `while True` loop body of `RateLimitHandler.reset`: pops stale
entries (`requests[0] + 60 < now`) from the front; `none` models the
`IndexError` raised by evaluating `self.requests[0]` once the list has
become empty. -/
def resetLoop (now : ℚ) : List ℚ → Option (List ℚ)
  | [] => none
  | t :: rest => if t + 60 < now then resetLoop now rest else some (t :: rest)

/-- Source `RateLimitHandler.reset`: returns immediately on an empty history,
otherwise runs the pruning loop.  `none` models an `IndexError` escape. -/
def reset (now : ℚ) (requests : List ℚ) : Option (List ℚ) :=
  if requests.isEmpty then some requests else resetLoop now requests

/-- Source `RateLimitHandler.can_request` (property): calls `reset` (mutating the
history), then returns
`time.perf_counter() - self.last_request >= self.wait_limit and
len(self.requests) < self.limit`.  The first component is `none` when
`reset` raises; the second is the limiter state as left behind (after an
`IndexError` the Python list has already been emptied by the pops). -/
def can_request (now : ℚ) (st : RateLimitHandler) : Option Bool × RateLimitHandler :=
  match reset now st.requests with
  | none => (none, { st with requests := [] })
  | some reqs =>
      (some (decide (st.wait_limit ≤ now - st.last_request) && decide (reqs.length < st.limit)),
       { st with requests := reqs })

/-- The wait-duration computation of `RateLimitHandler.wait`:
`next_available_request = self.wait_limit - (time.perf_counter() - self.last_request)`,
raised to `self.requests[0] + 60 - time.perf_counter()` when
`len(self.requests) >= self.limit`.  `none` models the `IndexError` of
`self.requests[0]` on an empty history.  The state is not mutated. -/
def waitTime (now : ℚ) (st : RateLimitHandler) : Option ℚ :=
  let nar := st.wait_limit - (now - st.last_request)
  if st.limit ≤ st.requests.length then
    match st.requests with
    | [] => none
    | t0 :: _ => some (max nar (t0 + 60 - now))
  else
    some nar

/-- Modelled from the spec: `asyncio.sleep` (an external collaborator, not
under `src/`) treats a negative or zero delay as "no wait", never as an
error; the effective suspension time is the non-negative part of the
requested delay. -/
def effectiveSleep (d : ℚ) : ℚ := max d 0

/-- Endpoint descriptor (`path` object): URL path, `requires_auth` flag and
required scope.  Modelled from the spec: the `Path`/`Scope` classes are not
under `src/`; `scope` stands for the scope identifier
(`path.scope.scopes`), and rendering the scope object in the error message
(`f"{scope_required}"`) yields that identifier. -/
structure Endpoint where
  path : String
  requires_auth : Bool
  scope : String
  deriving DecidableEq

/-- Credential held by the client (`client.auth` / handler `auth`):
a bearer token and the container of granted scope identifiers against which
the source tests membership (`scope_required.scopes not in client.auth.scope`). -/
structure AuthInfo where
  token : String
  scope : List String
  deriving DecidableEq

/-- Membership test `scope_required.scopes in self.client.auth.scope`
(only evaluated when a credential is present). -/
def grantedContains (auth : Option AuthInfo) (s : String) : Bool :=
  match auth with
  | none => false
  | some a => a.scope.contains s

/-- The token the handler reads (`self.auth.token`); only consulted when
`requires_auth` is true, in which case a credential is present. -/
def tokenOf (auth : Option AuthInfo) : String :=
  match auth with
  | none => ""
  | some a => a.token

/-- Python-dict lookup over an insertion-ordered association list: the
entry written last wins (later `**` merges and assignments override). -/
def hlookup : List (String × String) → String → Option String
  | [], _ => none
  | p :: rest, k =>
      match hlookup rest k with
      | some v => some v
      | none => if p.1 = k then some p.2 else none

/-- The fixed base headers of `AsynchronousHTTPHandler.get_headers`. -/
def baseHeaders : List (String × String) :=
  [("Content-Type", "application/json"), ("Accept", "application/json")]

/-- Source `AsynchronousHTTPHandler.get_headers`: the base dict, merged with the
caller's `**kwargs` keeping only non-`None` values, then — when
`requires_auth` — the assignment `headers['Authorization'] = f"Bearer {token}"`,
which overrides any earlier binding of that key. -/
def get_headers (token : String) (ra : Bool) (kwargs : List (String × Option String)) :
    List (String × String) :=
  let merged := baseHeaders ++ kwargs.filterMap (fun p => p.2.map (fun v => (p.1, v)))
  if ra then merged ++ [("Authorization", "Bearer " ++ token)] else merged

/-- Transport response: HTTP status and body; `raise_for_status` raises
exactly when the status is a 4xx/5xx client or server error. -/
structure Resp where
  status : ℕ
  body : String
  deriving DecidableEq

/-- Observable events of one `_make_request` invocation, in order:
evaluation of the auth precondition, suspension in `rate_limit.wait()`,
evaluation of the scope precondition, the network call, and
`rate_limit.request_used()`. -/
inductive Event where
  | checkAuth
  | rateWait
  | checkScope
  | netCall
  | record
  deriving DecidableEq

/-- Outcome of one `_make_request` invocation: decoded body, a raised
`ScopeException` with its message, a raised `IndexError` escaping from the
limiter, or the `HTTPError` of `raise_for_status`. -/
inductive DispatchResult where
  | ok (body : String)
  | scopeError (msg : String)
  | indexError
  | httpError (status : ℕ) (body : String)
  deriving DecidableEq

/-- The `ScopeException` message of the missing-credential branch. -/
def authRequiredMsg : String := "You need to be authenticated to do this action."

/-- The `ScopeException` message of the missing-scope branch
(`f"You don't have the {scope_required} scope, which is required to do this action."`). -/
def scopeMsg (s : String) : String :=
  "You don't have the " ++ s ++ " scope, which is required to do this action."

/-- Source `AsynchronousHTTPHandler._make_request`, as a pure function from the
current time `now` (used by `can_request` and `wait`), the two clock reads
`t1 t2` of `request_used`, the endpoint, the caller's extra headers, the
credential, the transport (a function from the sent headers to the
response) and the limiter state, to the event trace, the outcome and the
final limiter state.  It mirrors the source order: auth precondition,
`can_request` (which prunes and may raise), `wait` when not ready, scope
precondition, headers, network call, `request_used`, `raise_for_status`. -/
def make_request (now t1 t2 : ℚ) (path : Endpoint)
    (headers : List (String × Option String)) (auth : Option AuthInfo)
    (transport : List (String × String) → Resp) (st : RateLimitHandler) :
    List Event × DispatchResult × RateLimitHandler :=
  if path.requires_auth && auth.isNone then
    ([.checkAuth], .scopeError authRequiredMsg, st)
  else
    match can_request now st with
    | (none, st1) => ([.checkAuth], .indexError, st1)
    | (some ready, st1) =>
        match (if ready then some false else (waitTime now st1).map fun _ => true) with
        | none => ([.checkAuth], .indexError, st1)
        | some waited =>
            let ev1 := Event.checkAuth :: (if waited then [Event.rateWait] else [])
            if path.requires_auth && !(grantedContains auth path.scope) then
              (ev1 ++ [.checkScope], .scopeError (scopeMsg path.scope), st1)
            else
              let ev2 := ev1 ++ (if path.requires_auth then [Event.checkScope] else [])
              let hdrs := get_headers (tokenOf auth) path.requires_auth headers
              let resp := transport hdrs
              let st2 := request_used t1 t2 st1
              let ev3 := ev2 ++ [Event.netCall, Event.record]
              let res := if 400 ≤ resp.status then
                  DispatchResult.httpError resp.status resp.body
                else
                  DispatchResult.ok resp.body
              (ev3, res, st2)

/-- Source `RateLimitHandler.wait` as a state transformer: it computes the delay
and suspends in `asyncio.sleep`; the limiter state is not mutated. -/
def wait_op (now : ℚ) (st : RateLimitHandler) : Option ℚ × RateLimitHandler :=
  (waitTime now st, st)

/-- A sequence of `request_used` calls, one per timestamp, oldest first
(each call's two clock reads collapsed to the recorded time). -/
def recordSeq (ts : List ℚ) (st : RateLimitHandler) : RateLimitHandler :=
  ts.foldl (fun s ti => request_used ti ti s) st

lemma resetLoop_suffix (now : ℚ) :
    ∀ l l' : List ℚ, resetLoop now l = some l' → l' <:+ l := by
  intro l
  induction l with
  | nil => intro l' h; simp [resetLoop] at h
  | cons t rest ih =>
      intro l' h
      by_cases hs : t + 60 < now
      · simp only [resetLoop, if_pos hs] at h
        exact (ih l' h).trans (List.suffix_cons t rest)
      · simp only [resetLoop, if_neg hs, Option.some.injEq] at h
        exact h ▸ List.suffix_rfl

lemma reset_suffix (now : ℚ) {l l' : List ℚ} (h : reset now l = some l') : l' <:+ l := by
  unfold reset at h
  by_cases he : l.isEmpty = true
  · rw [if_pos he] at h
    injection h with h'
    exact h' ▸ List.suffix_rfl
  · rw [if_neg he] at h
    exact resetLoop_suffix now l l' h

lemma resetLoop_some_of_exists (now : ℚ) :
    ∀ l : List ℚ, (∃ x ∈ l, ¬ (x + 60 < now)) →
      resetLoop now l = some (l.dropWhile (fun t => decide (t + 60 < now))) := by
  intro l
  induction l with
  | nil => rintro ⟨x, hx, -⟩; simp at hx
  | cons t rest ih =>
      rintro ⟨x, hx, hxs⟩
      by_cases hs : t + 60 < now
      · have hxr : x ∈ rest := by
          rcases List.mem_cons.1 hx with rfl | h
          · exact absurd hs hxs
          · exact h
        simp only [resetLoop, if_pos hs, List.dropWhile_cons, decide_eq_true hs]
        exact ih ⟨x, hxr, hxs⟩
      · simp [resetLoop, if_neg hs, List.dropWhile_cons, hs]

lemma dropWhile_eq_filter_of_sorted (now : ℚ) :
    ∀ l : List ℚ, List.Sorted (· ≤ ·) l →
      l.dropWhile (fun t => decide (t + 60 < now))
        = l.filter (fun t => !decide (t + 60 < now)) := by
  intro l
  induction l with
  | nil => intro _; rfl
  | cons t rest ih =>
      intro hs
      rcases List.sorted_cons.1 hs with ⟨hle, hrest⟩
      by_cases hst : t + 60 < now
      · simp [List.dropWhile_cons, List.filter_cons, hst, ih hrest]
      · have hall : ∀ x ∈ rest, ¬ (x + 60 < now) := by
          intro x hx hlt
          exact hst (lt_of_le_of_lt (by linarith [hle x hx]) hlt)
        have : rest.filter (fun t => !decide (t + 60 < now)) = rest := by
          apply List.filter_eq_self.2
          intro x hx
          simpa using hall x hx
        simp [List.dropWhile_cons, List.filter_cons, hst, this]

lemma recordSeq_requests (st : RateLimitHandler) :
    ∀ ts : List ℚ, (recordSeq ts st).requests = st.requests ++ ts := by
  suffices h : ∀ ts (s : RateLimitHandler), (recordSeq ts s).requests = s.requests ++ ts by
    intro ts; exact h ts st
  intro ts
  induction ts with
  | nil => intro s; simp [recordSeq]
  | cons t rest ih =>
      intro s
      simp [recordSeq, List.foldl_cons] at ih ⊢
      rw [ih (request_used t t s)]
      simp [request_used]

lemma recordSeq_fields (st : RateLimitHandler) :
    ∀ ts : List ℚ, (recordSeq ts st).wait_limit = st.wait_limit
      ∧ (recordSeq ts st).limit = st.limit := by
  suffices h : ∀ ts (s : RateLimitHandler),
      (recordSeq ts s).wait_limit = s.wait_limit ∧ (recordSeq ts s).limit = s.limit by
    intro ts; exact h ts st
  intro ts
  induction ts with
  | nil => intro s; simp [recordSeq]
  | cons t rest ih =>
      intro s
      simp only [recordSeq, List.foldl_cons] at ih ⊢
      exact ih (request_used t t s)

lemma recordSeq_last (st : RateLimitHandler) (ts : List ℚ) (tn : ℚ) :
    (recordSeq (ts ++ [tn]) st).last_request = tn := by
  suffices h : ∀ ts (s : RateLimitHandler),
      (recordSeq (ts ++ [tn]) s).last_request = tn by exact h ts st
  intro ts
  induction ts with
  | nil => intro s; simp [recordSeq, request_used]
  | cons t rest ih =>
      intro s
      simp only [recordSeq, List.cons_append, List.foldl_cons] at ih ⊢
      exact ih (request_used t t s)

lemma hlookup_append (l1 l2 : List (String × String)) (k : String) :
    hlookup (l1 ++ l2) k
      = match hlookup l2 k with
        | some v => some v
        | none => hlookup l1 k := by
  induction l1 with
  | nil =>
      simp only [List.nil_append, hlookup]
      cases hlookup l2 k <;> rfl
  | cons p rest ih =>
      show (match hlookup (rest ++ l2) k with
            | some v => some v
            | none => if p.1 = k then some p.2 else none) = _
      rw [ih]
      cases h2 : hlookup l2 k <;> simp [hlookup]

lemma hlookup_auth_entry (token k : String) (h : k ≠ "Authorization") :
    hlookup [("Authorization", "Bearer " ++ token)] k = none := by
  have h' : ¬ ("Authorization" = k) := fun he => h he.symm
  simp [hlookup, h']

/-- C1: the claim says the pruning pass invoked by a readiness check always
stops at the first non-stale entry and never raises, including when every
entry in the history is stale.  The code violates this: on the history
`[0]` at time `100` (one entry, 100 seconds old, window 60), `reset` pops
the stale entry and then evaluates `self.requests[0]` on the now-empty
list, raising `IndexError` (modelled as `none`). -/
theorem C1_reset_all_stale_raises : reset 100 [0] = none := by
  norm_num [reset, resetLoop]

/-- C5: the wait-duration computation of `RateLimitHandler.wait` equals
`wait_limit - (now - last_request)` when the history size is below the
per-window limit, equals the maximum of that and
`requests[0] + 60 - now` when the history size reaches the limit, never
fails when the limit is at least 1, and a non-positive requested delay is
an effective sleep of zero rather than an error. -/
theorem C5_wait_time_spec :
    ∀ (st : RateLimitHandler) (now : ℚ), 1 ≤ st.limit →
      (st.requests.length < st.limit →
          waitTime now st = some (st.wait_limit - (now - st.last_request)))
      ∧ (st.limit ≤ st.requests.length →
          ∃ t0 rest, st.requests = t0 :: rest ∧
            waitTime now st
              = some (max (st.wait_limit - (now - st.last_request)) (t0 + 60 - now)))
      ∧ (∃ d, waitTime now st = some d)
      ∧ (∀ d : ℚ, d ≤ 0 → effectiveSleep d = 0) := by
  intro st now hlim
  have h1 : st.requests.length < st.limit →
      waitTime now st = some (st.wait_limit - (now - st.last_request)) := by
    intro h
    have hn : ¬ (st.limit ≤ st.requests.length) := by omega
    simp [waitTime, hn]
  have h2 : st.limit ≤ st.requests.length →
      ∃ t0 rest, st.requests = t0 :: rest ∧
        waitTime now st
          = some (max (st.wait_limit - (now - st.last_request)) (t0 + 60 - now)) := by
    intro h
    have hne : st.requests ≠ [] := by
      intro he
      rw [he] at h
      simp at h
      omega
    obtain ⟨t0, rest, hr⟩ := List.exists_cons_of_ne_nil hne
    refine ⟨t0, rest, hr, ?_⟩
    simp only [waitTime]
    rw [if_pos h, hr]
  refine ⟨h1, h2, ?_, ?_⟩
  · rcases le_or_lt st.limit st.requests.length with h | h
    · obtain ⟨t0, rest, _, he⟩ := h2 h
      exact ⟨_, he⟩
    · exact ⟨_, h1 h⟩
  · intro d hd
    simp [effectiveSleep, max_eq_right hd]

/-- C5 witness: at a fresh-looking state with an empty history, limit 5,
`wait_limit = 1`, `last_request = 9` and `now = 10`, the computation
returns `1 - (10 - 9) = 0`. -/
theorem C5_wait_time_spec_witness :
    waitTime 10 { wait_limit := 1, limit := 5, last_request := 9, requests := [] }
      = some 0 := by
  have h := (C5_wait_time_spec
      { wait_limit := 1, limit := 5, last_request := 9, requests := [] } 10
      (by norm_num)).1 (by norm_num)
  rw [h]
  norm_num

/-- C6: an invocation of `_make_request` on an endpoint requiring
authentication while no credential is present raises the `ScopeException`
"You need to be authenticated to do this action." immediately: the trace is
just the auth-precondition evaluation (no network call, no suspension, no
usage record) and the limiter state is returned exactly as it was. -/
theorem C6_auth_required_blocks :
    ∀ (now t1 t2 : ℚ) (path : Endpoint) (headers : List (String × Option String))
      (auth : Option AuthInfo) (transport : List (String × String) → Resp)
      (st : RateLimitHandler),
      path.requires_auth = true → auth = none →
      make_request now t1 t2 path headers auth transport st
        = ([Event.checkAuth], DispatchResult.scopeError authRequiredMsg, st) := by
  intro now t1 t2 path headers auth transport st hra hauth
  subst hauth
  simp [make_request, hra]

/-- C6 witness: a concrete unauthenticated invocation of an auth-requiring
endpoint fails with the authentication message, leaving the limiter state
`⟨1, 5, 0, []⟩` untouched and producing no network call. -/
theorem C6_auth_required_blocks_witness :
    make_request 0 0 0 { path := "/me", requires_auth := true, scope := "identify" }
      [] none (fun _ => { status := 200, body := "ok" })
      { wait_limit := 1, limit := 5, last_request := 0, requests := [] }
      = ([Event.checkAuth], DispatchResult.scopeError authRequiredMsg,
         { wait_limit := 1, limit := 5, last_request := 0, requests := [] }) :=
  C6_auth_required_blocks 0 0 0 _ [] none _ _ rfl rfl

/-- C7: `get_headers` merges the fixed base
`{Content-Type: application/json, Accept: application/json}` with the
caller's keyword headers under Python-dict override semantics, keeping a
caller value only when it is non-`None`; and when `requires_auth` is true
the final `Authorization` value is `Bearer <token>` no matter what the
caller supplied for that key. -/
theorem C7_header_merge :
    ∀ (token : String) (kwargs : List (String × Option String)),
      hlookup (get_headers token true kwargs) "Authorization"
        = some ("Bearer " ++ token)
      ∧ ∀ (ra : Bool) (k : String), k ≠ "Authorization" →
          hlookup (get_headers token ra kwargs) k
            = match hlookup (kwargs.filterMap (fun p => p.2.map (fun v => (p.1, v)))) k with
              | some v => some v
              | none => hlookup baseHeaders k := by
  intro token kwargs
  have etrue : get_headers token true kwargs
      = (baseHeaders ++ kwargs.filterMap (fun p => p.2.map (fun v => (p.1, v))))
          ++ [("Authorization", "Bearer " ++ token)] := rfl
  have efalse : get_headers token false kwargs
      = baseHeaders ++ kwargs.filterMap (fun p => p.2.map (fun v => (p.1, v))) := rfl
  constructor
  · rw [etrue, hlookup_append]
    simp [hlookup]
  · intro ra k hk
    cases ra with
    | false =>
        rw [efalse, hlookup_append]
    | true =>
        rw [etrue, hlookup_append, hlookup_auth_entry token k hk, hlookup_append]

/-- C7 witness: with token `"T"`, a caller override `Accept: text/html`,
a caller `Authorization` attempt and a `None`-valued `X-Extra` (dropped, so
the base `Content-Type` survives), the final headers give the caller's
`Accept`, the base `Content-Type`, and `Authorization: Bearer T`. -/
theorem C7_header_merge_witness :
    hlookup (get_headers "T" true
        [("Accept", some "text/html"), ("Authorization", some "Bearer EVIL"),
         ("X-Extra", none)]) "Accept" = some "text/html"
    ∧ hlookup (get_headers "T" true
        [("Accept", some "text/html"), ("Authorization", some "Bearer EVIL"),
         ("X-Extra", none)]) "Authorization" = some ("Bearer " ++ "T") := by
  constructor
  · have h := (C7_header_merge "T"
        [("Accept", some "text/html"), ("Authorization", some "Bearer EVIL"),
         ("X-Extra", none)]).2 true "Accept" (by decide)
    rw [h]
    rfl
  · exact (C7_header_merge "T"
        [("Accept", some "text/html"), ("Authorization", some "Bearer EVIL"),
         ("X-Extra", none)]).1

/-- C10: a freshly constructed limiter is immediately ready: the
constructor sets `last_request` to the construction time minus
`wait_limit` and the history to empty, so at construction time `t`
`can_request` prunes nothing and both conditions hold whenever
`limit_per_minute ≥ 1`. -/
theorem C10_fresh_limiter_ready :
    ∀ (t w : ℚ) (lim : ℕ), 1 ≤ lim →
      (can_request t (rateLimitInit t w lim)).1 = some true := by
  intro t w lim hlim
  simp [can_request, rateLimitInit, reset]
  omega

/-- C10 witness: the limiter built at time 5 with a 1-second interval and
3 requests per minute answers ready at time 5. -/
theorem C10_fresh_limiter_ready_witness :
    (can_request 5 (rateLimitInit 5 1 3)).1 = some true :=
  C10_fresh_limiter_ready 5 1 3 (by norm_num)

lemma waitTime_isSome (st : RateLimitHandler) (now : ℚ) (h : 1 ≤ st.limit) :
    ∃ d, waitTime now st = some d := by
  by_cases hc : st.limit ≤ st.requests.length
  · have hne : st.requests ≠ [] := by
      intro he
      rw [he] at hc
      simp at hc
      omega
    obtain ⟨t0, rest, hr⟩ := List.exists_cons_of_ne_nil hne
    refine ⟨max (st.wait_limit - (now - st.last_request)) (t0 + 60 - now), ?_⟩
    simp only [waitTime]
    rw [if_pos hc, hr]
  · refine ⟨st.wait_limit - (now - st.last_request), ?_⟩
    simp only [waitTime]
    rw [if_neg hc]

/-- C9: every limiter operation preserves the state invariants.
`request_used` keeps the history ascending (given a monotone clock: the
appended read is at least every recorded timestamp) and moves
`last_request` forward; the pruning pass of `can_request` trims a prefix,
leaving a sorted (suffix) history — even on the `IndexError` escape, where
the pops have emptied the list — and does not touch `last_request`; and
`wait` does not mutate the state at all. -/
theorem C9_limiter_invariants :
    ∀ (st : RateLimitHandler) (t1 t2 now : ℚ),
      List.Sorted (· ≤ ·) st.requests →
      ((∀ x ∈ st.requests, x ≤ t1) → st.last_request ≤ t2 →
        List.Sorted (· ≤ ·) (request_used t1 t2 st).requests
          ∧ st.last_request ≤ (request_used t1 t2 st).last_request)
      ∧ (List.Sorted (· ≤ ·) (can_request now st).2.requests
          ∧ (can_request now st).2.last_request = st.last_request)
      ∧ (List.Sorted (· ≤ ·) (wait_op now st).2.requests
          ∧ (wait_op now st).2.last_request = st.last_request) := by
  intro st t1 t2 now hs
  refine ⟨?_, ⟨?_, ?_⟩, hs, rfl⟩
  · intro hall hle
    constructor
    · simp only [request_used]
      rw [List.Sorted, List.pairwise_append]
      refine ⟨hs, List.pairwise_singleton _ _, ?_⟩
      intro a ha b hb
      rw [List.mem_singleton] at hb
      exact hb ▸ hall a ha
    · simpa [request_used] using hle
  · cases hres : reset now st.requests with
    | none => simp [can_request, hres]
    | some reqs =>
        simp only [can_request, hres]
        exact List.Pairwise.sublist (reset_suffix now hres).sublist hs
  · cases hres : reset now st.requests with
    | none => simp [can_request, hres]
    | some reqs => simp [can_request, hres]

/-- C9 witness: with sorted history `[1, 2]`, recording at clock reads 3
and 4 keeps the history sorted and does not decrease `last_request`; the
pruning pass at time 5 also leaves a sorted history. -/
theorem C9_limiter_invariants_witness :
    List.Sorted (· ≤ ·) (request_used 3 4
        { wait_limit := 1, limit := 5, last_request := 0, requests := [1, 2] }).requests
    ∧ (0:ℚ) ≤ (request_used 3 4
        { wait_limit := 1, limit := 5, last_request := 0, requests := [1, 2] }).last_request
    ∧ List.Sorted (· ≤ ·) (can_request 5
        { wait_limit := 1, limit := 5, last_request := 0, requests := [1, 2] }).2.requests := by
  have h := C9_limiter_invariants
      { wait_limit := 1, limit := 5, last_request := 0, requests := [1, 2] } 3 4 5
      (by norm_num [List.sorted_cons])
  have h1 := h.1 (by intro x hx; simp at hx; rcases hx with rfl | rfl <;> norm_num)
      (by norm_num)
  exact ⟨h1.1, h1.2, h.2.1.1⟩

/-- C4 counterexample: the claim says `can_request` at time `t` always
prunes and then *returns* a boolean decided by the two readiness
conditions.  At time 100 on the state with the single stale entry `[0]`
(`wait_limit = 1`, `limit = 5`, `last_request = 0`) both conditions hold
(`100 - 0 ≥ 1` and the pruned history would be empty), yet `can_request`
raises `IndexError` inside the pruning loop instead of returning true. -/
theorem C4_cex_can_request_raises :
    (can_request 100
        { wait_limit := 1, limit := 5, last_request := 0, requests := [0] }).1 = none
    ∧ (1:ℚ) ≤ 100 - 0 ∧ (0:ℕ) < 5 := by
  refine ⟨?_, by norm_num, by norm_num⟩
  norm_num [can_request, reset, resetLoop]

/-- C4 (amended): provided the pruning pass terminates normally —
`reset` returns a pruned history rather than raising — `can_request` at
time `t` returns exactly the conjunction of "elapsed since `last_request`
is at least `wait_limit`" and "pruned history size is below the limit";
and for a sequence of `request_used` calls at ascending times ending at
`tn`, with `tn < t`, with the most recent entry still inside the window
(`t ≤ tn + 60`, the proviso forced by the `IndexError` counterexample),
and with fewer than `limit` entries within the window of `t`,
`can_request` at `t` returns false exactly when `t - tn < wait_limit`. -/
theorem C4_can_request_spec :
    (∀ (st : RateLimitHandler) (t : ℚ) (reqs : List ℚ),
      reset t st.requests = some reqs →
      (can_request t st).1
        = some (decide (st.wait_limit ≤ t - st.last_request)
            && decide (reqs.length < st.limit)))
    ∧ (∀ (t0 w : ℚ) (lim : ℕ) (ts0 : List ℚ) (tn t : ℚ),
      List.Sorted (· ≤ ·) (ts0 ++ [tn]) →
      tn < t →
      t ≤ tn + 60 →
      (ts0 ++ [tn]).countP (fun ti => decide (t ≤ ti + 60)) < lim →
      (can_request t (recordSeq (ts0 ++ [tn]) (rateLimitInit t0 w lim))).1
        = some (decide (w ≤ t - tn))) := by
  constructor
  · intro st t reqs hres
    simp [can_request, hres]
  · intro t0 w lim ts0 tn t hsort hlt hwin hcount
    set st := recordSeq (ts0 ++ [tn]) (rateLimitInit t0 w lim) with hst
    have hreq : st.requests = ts0 ++ [tn] := by
      rw [hst, recordSeq_requests]
      simp [rateLimitInit]
    have hlast : st.last_request = tn := by
      rw [hst, recordSeq_last]
    have hw : st.wait_limit = w := (recordSeq_fields _ _).1.trans rfl
    have hl : st.limit = lim := (recordSeq_fields _ _).2.trans rfl
    have hmem : ∃ x ∈ ts0 ++ [tn], ¬ (x + 60 < t) := by
      refine ⟨tn, ?_, by linarith⟩
      simp
    have hloop : resetLoop t (ts0 ++ [tn])
        = some ((ts0 ++ [tn]).dropWhile (fun x => decide (x + 60 < t))) :=
      resetLoop_some_of_exists t _ hmem
    have hdw : (ts0 ++ [tn]).dropWhile (fun x => decide (x + 60 < t))
        = (ts0 ++ [tn]).filter (fun x => !decide (x + 60 < t)) :=
      dropWhile_eq_filter_of_sorted t _ hsort
    have hres : reset t st.requests
        = some ((ts0 ++ [tn]).filter (fun x => !decide (x + 60 < t))) := by
      rw [hreq, reset]
      have hne : (ts0 ++ [tn]).isEmpty = false := by simp
      rw [hne]
      simp only [Bool.false_eq_true, if_false]
      rw [hloop, hdw]
    have hlen : ((ts0 ++ [tn]).filter (fun x => !decide (x + 60 < t))).length
        = (ts0 ++ [tn]).countP (fun ti => decide (t ≤ ti + 60)) := by
      rw [← List.countP_eq_length_filter]
      apply List.countP_congr
      intro a _
      simp [not_lt]
    simp only [can_request, hres, hlast, hw, hl]
    have hc2 : decide (((ts0 ++ [tn]).filter (fun x => !decide (x + 60 < t))).length < lim)
        = true := by
      rw [hlen]
      exact decide_eq_true hcount
    rw [hc2, Bool.and_true]

/-- C4 witness: one request recorded at time 5; at time 6 (inside both the
minimum interval test and the window), with `wait_limit = 1` and limit 5,
`can_request` returns true since `6 - 5 ≥ 1`. -/
theorem C4_can_request_spec_witness :
    (can_request 6 (recordSeq ([] ++ [5]) (rateLimitInit 0 1 5))).1 = some true := by
  have h := C4_can_request_spec.2 0 1 5 [] 5 6
      (by simp) (by norm_num) (by norm_num)
      (by norm_num [List.countP_cons, List.countP_nil])
  rw [h]
  norm_num

/-- C3 counterexample: the claim says every invocation with a credential
lacking the required scope fails with the insufficient-scope error.  With
limiter history `[0]` entirely stale at time 100, the readiness check's
pruning loop raises `IndexError` before the scope precondition is ever
evaluated, so the invocation fails with `IndexError` instead — even though
the endpoint requires auth, a credential is present, and the `identify`
scope is missing from the granted `["public"]`. -/
theorem C3_cex_prune_crash_preempts_scope_error :
    (make_request 100 100 100
        { path := "/me", requires_auth := true, scope := "identify" } []
        (some { token := "T", scope := ["public"] })
        (fun _ => { status := 200, body := "ok" })
        { wait_limit := 1, limit := 5, last_request := 0, requests := [0] }).2.1
      = DispatchResult.indexError
    ∧ ({ token := "T", scope := ["public"] } : AuthInfo).scope.contains "identify"
        = false := by
  constructor
  · norm_num [make_request, can_request, reset, resetLoop]
  · rfl

/-- C3 (amended): provided the limiter's pruning pass terminates normally
and the per-window limit is at least 1 (otherwise the limiter raises
`IndexError` first, as the counterexample shows), an invocation on an
auth-requiring endpoint whose credential lacks the required scope fails
with the `ScopeException` whose message names the missing scope, and
performs zero network calls. -/
theorem C3_insufficient_scope :
    ∀ (now t1 t2 : ℚ) (path : Endpoint) (headers : List (String × Option String))
      (a : AuthInfo) (transport : List (String × String) → Resp)
      (st : RateLimitHandler) (reqs : List ℚ),
      path.requires_auth = true →
      a.scope.contains path.scope = false →
      reset now st.requests = some reqs →
      1 ≤ st.limit →
      (make_request now t1 t2 path headers (some a) transport st).2.1
          = DispatchResult.scopeError (scopeMsg path.scope)
      ∧ Event.netCall ∉ (make_request now t1 t2 path headers (some a) transport st).1 := by
  intro now t1 t2 path headers a transport st reqs hra hsc hres hlim
  have hcan : can_request now st
      = (some (decide (st.wait_limit ≤ now - st.last_request)
            && decide (reqs.length < st.limit)),
         { st with requests := reqs }) := by
    simp [can_request, hres]
  have hgc : grantedContains (some a) path.scope = false := by
    simpa [grantedContains] using hsc
  by_cases hrdy : (decide (st.wait_limit ≤ now - st.last_request)
      && decide (reqs.length < st.limit)) = true
  · constructor
    · simp [make_request, hra, hcan, hrdy, hgc]
    · simp [make_request, hra, hcan, hrdy, hgc]
  · have hrdy' : (decide (st.wait_limit ≤ now - st.last_request)
        && decide (reqs.length < st.limit)) = false := by
      revert hrdy
      cases (decide (st.wait_limit ≤ now - st.last_request)
        && decide (reqs.length < st.limit)) <;> simp
    obtain ⟨d, hd⟩ := waitTime_isSome { st with requests := reqs } now (by simpa using hlim)
    constructor
    · simp [make_request, hra, hcan, hrdy', hd, hgc]
    · simp [make_request, hra, hcan, hrdy', hd, hgc]

/-- C3 witness: at time 10 with an empty history (prune succeeds), limit 5,
a credential granting only `public`, and an endpoint demanding `identify`,
the invocation fails with the message naming `identify` and the trace shows
no network call. -/
theorem C3_insufficient_scope_witness :
    (make_request 10 10 10
        { path := "/me", requires_auth := true, scope := "identify" } []
        (some { token := "T", scope := ["public"] })
        (fun _ => { status := 200, body := "ok" })
        { wait_limit := 1, limit := 5, last_request := 0, requests := [] }).2.1
      = DispatchResult.scopeError (scopeMsg "identify")
    ∧ Event.netCall ∉ (make_request 10 10 10
        { path := "/me", requires_auth := true, scope := "identify" } []
        (some { token := "T", scope := ["public"] })
        (fun _ => { status := 200, body := "ok" })
        { wait_limit := 1, limit := 5, last_request := 0, requests := [] }).1 :=
  C3_insufficient_scope 10 10 10
    { path := "/me", requires_auth := true, scope := "identify" } []
    { token := "T", scope := ["public"] }
    (fun _ => { status := 200, body := "ok" })
    { wait_limit := 1, limit := 5, last_request := 0, requests := [] } []
    rfl rfl rfl (by norm_num)

/-- C2 counterexample: the claim says both preconditions are evaluated
before the rate-gate wait and a precondition-failing invocation never
suspends.  At time 11 with `wait_limit = 2` and `last_request = 10` the
limiter is not ready, and an invocation whose credential lacks the
`identify` scope nevertheless suspends in `wait()` first and only then
fails the scope precondition: the trace is auth check, then the rate
wait, then the scope check. -/
theorem C2_cex_scope_checked_after_wait :
    make_request 11 11 11 { path := "/me", requires_auth := true, scope := "identify" } []
        (some { token := "T", scope := ["public"] })
        (fun _ => { status := 200, body := "ok" })
        { wait_limit := 2, limit := 5, last_request := 10, requests := [10] }
      = ([Event.checkAuth, Event.rateWait, Event.checkScope],
         DispatchResult.scopeError (scopeMsg "identify"),
         { wait_limit := 2, limit := 5, last_request := 10, requests := [10] }) := by
  norm_num [make_request, can_request, reset, resetLoop, waitTime, grantedContains]
  intro h
  exact absurd h (by decide)

/-- C2 (amended): the auth precondition is evaluated first and an
invocation failing it never suspends on the rate gate (its trace is just
the auth check); the scope precondition, however, is evaluated only
*after* the rate-gate wait: every trace has the shape auth check, then an
optional rate wait, then an optional scope check, then an optional
dispatch — so a scope-failing invocation can suspend before failing,
contrary to the claim's "both preconditions before the wait". -/
theorem C2_precondition_order :
    ∀ (now t1 t2 : ℚ) (path : Endpoint) (headers : List (String × Option String))
      (auth : Option AuthInfo) (transport : List (String × String) → Resp)
      (st : RateLimitHandler),
      (path.requires_auth = true → auth = none →
        (make_request now t1 t2 path headers auth transport st).1 = [Event.checkAuth])
      ∧ ∃ b1 b2 b3 : Bool,
          (make_request now t1 t2 path headers auth transport st).1
            = Event.checkAuth :: ((if b1 then [Event.rateWait] else [])
                ++ (if b2 then [Event.checkScope] else [])
                ++ (if b3 then [Event.netCall, Event.record] else [])) := by
  intro now t1 t2 path headers auth transport st
  constructor
  · intro hra hauth
    subst hauth
    simp [make_request, hra]
  · by_cases h1 : (path.requires_auth && auth.isNone) = true
    · exact ⟨false, false, false, by simp [make_request, h1]⟩
    · have h1' : (path.requires_auth && auth.isNone) = false := Bool.eq_false_iff.mpr h1
      rcases hc : can_request now st with ⟨o, st1⟩
      cases o with
      | none => exact ⟨false, false, false, by simp [make_request, h1', hc]⟩
      | some ready =>
          cases ready with
          | true =>
              by_cases hsc : (path.requires_auth && !(grantedContains auth path.scope)) = true
              · exact ⟨false, true, false, by simp [make_request, h1', hc, hsc]⟩
              · have hsc' := Bool.eq_false_iff.mpr hsc
                exact ⟨false, path.requires_auth, true,
                  by simp [make_request, h1', hc, hsc']⟩
          | false =>
              rcases hw : waitTime now st1 with _ | d
              · exact ⟨false, false, false, by simp [make_request, h1', hc, hw]⟩
              · by_cases hsc : (path.requires_auth && !(grantedContains auth path.scope)) = true
                · exact ⟨true, true, false, by simp [make_request, h1', hc, hw, hsc]⟩
                · have hsc' := Bool.eq_false_iff.mpr hsc
                  exact ⟨true, path.requires_auth, true,
                    by simp [make_request, h1', hc, hw, hsc']⟩

/-- C2 witness: an unauthenticated invocation of an auth-requiring
endpoint produces the one-event trace — it never reaches the rate gate. -/
theorem C2_precondition_order_witness :
    (make_request 0 0 0 { path := "/me", requires_auth := true, scope := "identify" } []
        none (fun _ => { status := 200, body := "ok" })
        { wait_limit := 1, limit := 5, last_request := 0, requests := [] }).1
      = [Event.checkAuth] :=
  (C2_precondition_order 0 0 0 { path := "/me", requires_auth := true, scope := "identify" }
      [] none (fun _ => { status := 200, body := "ok" })
      { wait_limit := 1, limit := 5, last_request := 0, requests := [] }).1 rfl rfl

lemma can_request_some_inv {now : ℚ} {st st1 : RateLimitHandler} {b : Bool}
    (h : can_request now st = (some b, st1)) :
    ∃ reqs, reset now st.requests = some reqs ∧ st1 = { st with requests := reqs } := by
  unfold can_request at h
  cases hres : reset now st.requests with
  | none =>
      rw [hres] at h
      simp at h
  | some reqs =>
      rw [hres] at h
      refine ⟨reqs, rfl, ?_⟩
      have h2 := congrArg Prod.snd h
      simpa using h2.symm

/-- C8: whenever an invocation of `_make_request` reaches the network call
(receives a response from the transport), `request_used` runs exactly once
— the trace contains exactly one usage record and the final history is the
pruned history with exactly one appended timestamp — and this holds in
particular for invocations whose response status makes
`raise_for_status` raise `HTTPError`: accounting reflects requests sent,
not requests that succeeded. -/
theorem C8_record_exactly_once :
    ∀ (now t1 t2 : ℚ) (path : Endpoint) (headers : List (String × Option String))
      (auth : Option AuthInfo) (transport : List (String × String) → Resp)
      (st : RateLimitHandler),
      (Event.netCall ∈ (make_request now t1 t2 path headers auth transport st).1 →
        (make_request now t1 t2 path headers auth transport st).1.count Event.record = 1
        ∧ ∃ reqs, reset now st.requests = some reqs
            ∧ (make_request now t1 t2 path headers auth transport st).2.2.requests
                = reqs ++ [t1])
      ∧ (∀ s b, (make_request now t1 t2 path headers auth transport st).2.1
            = DispatchResult.httpError s b →
          Event.netCall ∈ (make_request now t1 t2 path headers auth transport st).1) := by
  intro now t1 t2 path headers auth transport st
  by_cases h1 : (path.requires_auth && auth.isNone) = true
  · constructor
    · intro hmem
      simp [make_request, h1] at hmem
    · intro s b hres
      simp [make_request, h1] at hres
  · have h1' : (path.requires_auth && auth.isNone) = false := Bool.eq_false_iff.mpr h1
    rcases hc : can_request now st with ⟨o, st1⟩
    cases o with
    | none =>
        constructor
        · intro hmem
          simp [make_request, h1', hc] at hmem
        · intro s b hres
          simp [make_request, h1', hc] at hres
    | some ready =>
        have hdispatch : ∀ w : Bool,
            (make_request now t1 t2 path headers auth transport st).1
              = Event.checkAuth :: ((if w then [Event.rateWait] else [])
                  ++ (if path.requires_auth then [Event.checkScope] else [])
                  ++ [Event.netCall, Event.record]) →
            (make_request now t1 t2 path headers auth transport st).2.2
              = request_used t1 t2 st1 →
            (make_request now t1 t2 path headers auth transport st).1.count Event.record = 1
            ∧ ∃ reqs, reset now st.requests = some reqs
                ∧ (make_request now t1 t2 path headers auth transport st).2.2.requests
                    = reqs ++ [t1] := by
          intro w htr hst2
          constructor
          · rw [htr]
            cases w <;> by_cases hpra : path.requires_auth = true <;> simp [hpra]
          · obtain ⟨reqs, hres, hst1⟩ := can_request_some_inv hc
            refine ⟨reqs, hres, ?_⟩
            rw [hst2, hst1]
            simp [request_used]
        cases ready with
        | true =>
            by_cases hsc : (path.requires_auth && !(grantedContains auth path.scope)) = true
            · constructor
              · intro hmem
                simp [make_request, h1', hc, hsc] at hmem
              · intro s b hres
                simp [make_request, h1', hc, hsc] at hres
            · have hsc' : (path.requires_auth && !(grantedContains auth path.scope)) = false :=
                Bool.eq_false_iff.mpr hsc
              constructor
              · intro _
                exact hdispatch false (by simp [make_request, h1', hc, hsc'])
                  (by simp [make_request, h1', hc, hsc'])
              · intro s b _
                simp [make_request, h1', hc, hsc']
        | false =>
            rcases hw : waitTime now st1 with _ | d
            · constructor
              · intro hmem
                simp [make_request, h1', hc, hw] at hmem
              · intro s b hres
                simp [make_request, h1', hc, hw] at hres
            · by_cases hsc : (path.requires_auth && !(grantedContains auth path.scope)) = true
              · constructor
                · intro hmem
                  simp [make_request, h1', hc, hw, hsc] at hmem
                · intro s b hres
                  simp [make_request, h1', hc, hw, hsc] at hres
              · have hsc' : (path.requires_auth && !(grantedContains auth path.scope)) = false :=
                  Bool.eq_false_iff.mpr hsc
                constructor
                · intro _
                  exact hdispatch true (by simp [make_request, h1', hc, hw, hsc'])
                    (by simp [make_request, h1', hc, hw, hsc'])
                · intro s b _
                  simp [make_request, h1', hc, hw, hsc']

/-- C8 witness: a ready limiter, a credential granting the required scope,
and a transport answering 404: the invocation reaches the network, raises
`HTTPError`, and still records exactly one usage. -/
theorem C8_record_exactly_once_witness :
    (make_request 10 10 10 { path := "/me", requires_auth := true, scope := "identify" } []
        (some { token := "T", scope := ["identify"] })
        (fun _ => { status := 404, body := "err" })
        { wait_limit := 1, limit := 5, last_request := 0, requests := [] }).1.count Event.record
      = 1 := by
  have hmem : Event.netCall ∈ (make_request 10 10 10
      { path := "/me", requires_auth := true, scope := "identify" } []
      (some { token := "T", scope := ["identify"] })
      (fun _ => { status := 404, body := "err" })
      { wait_limit := 1, limit := 5, last_request := 0, requests := [] }).1 := by
    norm_num [make_request, can_request, reset, grantedContains]
  exact ((C8_record_exactly_once 10 10 10
      { path := "/me", requires_auth := true, scope := "identify" } []
      (some { token := "T", scope := ["identify"] })
      (fun _ => { status := 404, body := "err" })
      { wait_limit := 1, limit := 5, last_request := 0, requests := [] }).1 hmem).1
